import Mathlib

/-!
A verification development for the secousse streaming client, covering the
Network Bridge Loader (`TauriHlsLoader.ts`), the chat hook (`useChat.ts`),
and the emote/badge resolution hook (`useEmotes`).  Each TypeScript function
relevant to the specification is shallowly embedded as a pure Lean function;
asynchronous resumption points (the code after an `await`) are embedded as
explicit "resolve" steps on an action trace, and wall-clock readings
(`performance.now()` / `Date.now()`) are passed in as `Nat` parameters.
-/

namespace Secousse

/-! ## String containment (JS `String.prototype.includes`) -/

/-- Character-list prefix test, used to define substring containment. -/
def isPrefixOfChars : List Char → List Char → Bool
  | [], _ => true
  | _ :: _, [] => false
  | a :: as, b :: bs => a == b && isPrefixOfChars as bs

/-- Substring containment on character lists: does `pat` occur inside `s`?
Mirrors JS `s.includes(pat)` (which is true for the empty pattern). -/
def containsSub : List Char → List Char → Bool
  | [], pat => isPrefixOfChars pat []
  | c :: rest, pat => isPrefixOfChars pat (c :: rest) || containsSub rest pat

/-- JS `s.includes(pat)` on Lean strings. -/
def strIncludes (s pat : String) : Bool :=
  containsSub s.data pat.data

/-- Spec-side notion, modelled from the spec words "URL ends with the playlist
suffix": a plain suffix test, for comparison with the code's containment test. -/
def specEndsWith (s suf : String) : Bool :=
  s.data.drop (s.data.length - suf.data.length) == suf.data

theorem isPrefixOfChars_iff (p s : List Char) :
    isPrefixOfChars p s = true ↔ ∃ rest, s = p ++ rest := by
  induction p generalizing s with
  | nil => simp [isPrefixOfChars]
  | cons a as ih =>
    cases s with
    | nil =>
      simp [isPrefixOfChars]
    | cons b bs =>
      simp only [isPrefixOfChars, Bool.and_eq_true, beq_iff_eq, ih,
        List.cons_append, List.cons.injEq]
      constructor
      · rintro ⟨rfl, rest, rfl⟩; exact ⟨rest, rfl, rfl⟩
      · rintro ⟨rest, rfl, rfl⟩; exact ⟨rfl, rest, rfl⟩

theorem containsSub_iff (s pat : List Char) :
    containsSub s pat = true ↔ ∃ pre post, s = pre ++ pat ++ post := by
  induction s with
  | nil =>
    simp only [containsSub, isPrefixOfChars_iff]
    constructor
    · rintro ⟨rest, h⟩
      exact ⟨[], rest, by simpa using h.symm⟩
    · rintro ⟨pre, post, h⟩
      rcases List.append_eq_nil.mp (List.append_eq_nil.mp h.symm).1 with ⟨rfl, rfl⟩
      exact ⟨post, by simpa using h⟩
  | cons c rest ih =>
    simp only [containsSub, Bool.or_eq_true, isPrefixOfChars_iff, ih]
    constructor
    · rintro (⟨r, hr⟩ | ⟨pre, post, hp⟩)
      · exact ⟨[], r, by simpa using hr⟩
      · exact ⟨c :: pre, post, by simp [hp]⟩
    · rintro ⟨pre, post, hp⟩
      cases pre with
      | nil => exact Or.inl ⟨post, by simpa using hp⟩
      | cons p ps =>
        refine Or.inr ⟨ps, post, ?_⟩
        have h2 : c :: rest = p :: (ps ++ pat ++ post) := by simpa using hp
        exact (List.cons.inj h2).2

/-- `strIncludes` decides substring containment of the underlying
character lists. -/
theorem strIncludes_iff (s pat : String) :
    strIncludes s pat = true ↔ ∃ pre post, s.data = pre ++ pat.data ++ post :=
  containsSub_iff s.data pat.data

/-! ## Network Bridge Loader (`TauriHlsLoader`) -/

/-- `{start, first, end}` timing record (the `loading`/`buffering` shape of
hls.js `LoaderStats`); `end` is a Lean keyword, rendered `end_`. -/
structure TimeRange where
  start : Nat
  first : Nat
  end_ : Nat
  deriving DecidableEq, Repr

/-- `{start, end}` timing record (the `parsing` shape). -/
structure ParseRange where
  start : Nat
  end_ : Nat
  deriving DecidableEq, Repr

/-- hls.js `LoaderStats`, as initialised in the `TauriHlsLoader` constructor. -/
structure LoaderStats where
  aborted : Bool
  loaded : Nat
  retry : Nat
  total : Nat
  chunkCount : Nat
  bwEstimate : Nat
  loading : TimeRange
  parsing : ParseRange
  buffering : TimeRange
  deriving DecidableEq, Repr

/-- The callbacks registration passed to `load`.  Only the presence of the
optional `onAbort` member is observable in the embedding; `onSuccess` and
`onError` are always present per the hls.js contract. -/
structure LoaderCallbacks where
  hasOnAbort : Bool
  deriving DecidableEq, Repr

/-- Payload of a loader response: decoded text for playlists, an owned byte
buffer for segments. -/
inductive LoaderData where
  | text (s : String)
  | bytes (b : List Nat)
  deriving DecidableEq, Repr

/-- Observable callback invocations of the loader. -/
inductive LoaderEvent where
  | onSuccess (url : String) (data : LoaderData) (stats : LoaderStats)
  | onError (code : Nat) (text : String)
  | onAbort
  deriving DecidableEq, Repr

/-- Which Tauri bridge command a load is routed to. -/
inductive BridgeCall where
  | fetchM3u8 (url : String)
  | fetchBytes (url : String)
  deriving DecidableEq, Repr

/-- Instance state of `TauriHlsLoader`: the `context` field (definitely
assigned by `load`, hence `Option` before the first load), the single
`stats` object created in the constructor, the single mutable callbacks
slot, and the `destroyed` flag. -/
structure TauriHlsLoader where
  context : Option String
  stats : LoaderStats
  callbacks : Option LoaderCallbacks
  destroyed : Bool
  deriving DecidableEq, Repr

namespace TauriHlsLoader

/-- The constructor: fresh stats, no callbacks, not destroyed. -/
def init : TauriHlsLoader where
  context := none
  stats :=
    { aborted := false, loaded := 0, retry := 0, total := 0, chunkCount := 0
      bwEstimate := 0
      loading := { start := 0, first := 0, end_ := 0 }
      parsing := { start := 0, end_ := 0 }
      buffering := { start := 0, first := 0, end_ := 0 } }
  callbacks := none
  destroyed := false

/-- `destroy()`: set the destroyed flag and release the callbacks slot. -/
def destroy (l : TauriHlsLoader) : TauriHlsLoader :=
  { l with destroyed := true, callbacks := none }

/-- `abort()`: set `stats.aborted` and invoke `onAbort` if registered. -/
def abort (l : TauriHlsLoader) : TauriHlsLoader × Option LoaderEvent :=
  ({ l with stats := { l.stats with aborted := true } },
   match l.callbacks with
   | some cbs => if cbs.hasOnAbort then some .onAbort else none
   | none => none)

/-- `load(context, _config, callbacks)` at wall-clock time `t`: store the
context and callbacks, stamp `loading.start`, and issue the bridge call
chosen by the `.m3u8` containment test on the URL. -/
def load (l : TauriHlsLoader) (url : String) (cbs : LoaderCallbacks) (t : Nat) :
    TauriHlsLoader × BridgeCall :=
  ({ l with
      context := some url
      callbacks := some cbs
      stats := { l.stats with loading := { l.stats.loading with start := t } } },
   if strIncludes url ".m3u8" then .fetchM3u8 url else .fetchBytes url)

/-- The code of `loadPlaylist` after `await invoke('fetch_m3u8', …)` resolves
at wall-clock time `t` with `result`.  Returns the new instance state and the
callback invocation, if any. -/
def resolvePlaylist (l : TauriHlsLoader) (result : Except String String) (t : Nat) :
    TauriHlsLoader × Option LoaderEvent :=
  match result with
  | .ok data =>
    if l.destroyed || l.stats.aborted then (l, none)
    else
      let first' := if l.stats.loading.first == 0 then t else l.stats.loading.first
      let stats' : LoaderStats :=
        { l.stats with
            loading := { start := l.stats.loading.start, first := first', end_ := t }
            loaded := data.length
            total := data.length
            parsing := { start := t, end_ := t }
            buffering := { start := t, first := t, end_ := t } }
      let l' := { l with stats := stats' }
      match l.callbacks with
      | some _ => (l', some (.onSuccess (l.context.getD "") (.text data) stats'))
      | none => (l', none)
  | .error e =>
    if l.destroyed || l.stats.aborted then (l, none)
    else
      match l.callbacks with
      | some _ => (l, some (.onError 0 e))
      | none => (l, none)

/-- The code of `loadSegment` after `await invoke('fetch_bytes', …)` resolves
at wall-clock time `t` with `result`. -/
def resolveSegment (l : TauriHlsLoader) (result : Except String (List Nat)) (t : Nat) :
    TauriHlsLoader × Option LoaderEvent :=
  match result with
  | .ok data =>
    if l.destroyed || l.stats.aborted then (l, none)
    else
      let first' := if l.stats.loading.first == 0 then t else l.stats.loading.first
      let stats' : LoaderStats :=
        { l.stats with
            loading := { start := l.stats.loading.start, first := first', end_ := t }
            loaded := data.length
            total := data.length
            parsing := { start := t, end_ := t }
            buffering := { start := t, first := t, end_ := t } }
      let l' := { l with stats := stats' }
      match l.callbacks with
      | some _ => (l', some (.onSuccess (l.context.getD "") (.bytes data) stats'))
      | none => (l', none)
  | .error e =>
    if l.destroyed || l.stats.aborted then (l, none)
    else
      match l.callbacks with
      | some _ => (l, some (.onError 0 e))
      | none => (l, none)

end TauriHlsLoader

/-- One externally-triggered step on a loader instance: a call from the
streaming engine (`load`, `abort`, `destroy`) or the resumption of an
in-flight bridge call (`resolvePlaylist` / `resolveSegment`).  Resumptions
are separate trace actions precisely because the bridge call may settle at
any later point, interleaved with other calls. -/
inductive LoaderAction where
  | load (url : String) (cbs : LoaderCallbacks) (t : Nat)
  | abort
  | destroy
  | resolvePlaylist (result : Except String String) (t : Nat)
  | resolveSegment (result : Except String (List Nat)) (t : Nat)
  deriving Repr

/-- Step function of the loader trace semantics. -/
def loaderStep (l : TauriHlsLoader) (a : LoaderAction) :
    TauriHlsLoader × Option LoaderEvent :=
  match a with
  | .load url cbs t => ((l.load url cbs t).1, none)
  | .abort => l.abort
  | .destroy => (l.destroy, none)
  | .resolvePlaylist r t => l.resolvePlaylist r t
  | .resolveSegment r t => l.resolveSegment r t

/-- Run a trace of loader actions from a given instance state. -/
def runLoaderFrom (l : TauriHlsLoader) (acts : List LoaderAction) : TauriHlsLoader :=
  acts.foldl (fun s a => (loaderStep s a).1) l

/-- Run a trace of loader actions from a fresh instance. -/
def runLoader (acts : List LoaderAction) : TauriHlsLoader :=
  runLoaderFrom TauriHlsLoader.init acts

/-- No loader action ever clears `stats.aborted`. -/
theorem loaderStep_aborted_mono (l : TauriHlsLoader) (a : LoaderAction)
    (h : l.stats.aborted = true) : (loaderStep l a).1.stats.aborted = true := by
  cases a with
  | load url cbs t => simpa [loaderStep, TauriHlsLoader.load] using h
  | abort => simp [loaderStep, TauriHlsLoader.abort]
  | destroy => simpa [loaderStep, TauriHlsLoader.destroy] using h
  | resolvePlaylist r t =>
    cases r <;> simp [loaderStep, TauriHlsLoader.resolvePlaylist, h]
  | resolveSegment r t =>
    cases r <;> simp [loaderStep, TauriHlsLoader.resolveSegment, h]

/-- No loader action ever clears the `destroyed` flag. -/
theorem loaderStep_destroyed_mono (l : TauriHlsLoader) (a : LoaderAction)
    (h : l.destroyed = true) : (loaderStep l a).1.destroyed = true := by
  cases a with
  | load url cbs t => simpa [loaderStep, TauriHlsLoader.load] using h
  | abort => simpa [loaderStep, TauriHlsLoader.abort] using h
  | destroy => simp [loaderStep, TauriHlsLoader.destroy]
  | resolvePlaylist r t =>
    cases r <;> simp [loaderStep, TauriHlsLoader.resolvePlaylist, h]
  | resolveSegment r t =>
    cases r <;> simp [loaderStep, TauriHlsLoader.resolveSegment, h]

/-- `stats.aborted` persists across any suffix of the trace. -/
theorem runLoaderFrom_aborted_mono (l : TauriHlsLoader) (acts : List LoaderAction)
    (h : l.stats.aborted = true) : (runLoaderFrom l acts).stats.aborted = true := by
  induction acts generalizing l with
  | nil => simpa [runLoaderFrom] using h
  | cons a rest ih =>
    simpa [runLoaderFrom] using ih _ (loaderStep_aborted_mono l a h)

/-- `destroyed` persists across any suffix of the trace. -/
theorem runLoaderFrom_destroyed_mono (l : TauriHlsLoader) (acts : List LoaderAction)
    (h : l.destroyed = true) : (runLoaderFrom l acts).destroyed = true := by
  induction acts generalizing l with
  | nil => simpa [runLoaderFrom] using h
  | cons a rest ih =>
    simpa [runLoaderFrom] using ih _ (loaderStep_destroyed_mono l a h)

/-- A resolve step on an aborted instance emits no callback. -/
theorem resolvePlaylist_aborted_silent (l : TauriHlsLoader)
    (r : Except String String) (t : Nat) (h : l.stats.aborted = true) :
    (l.resolvePlaylist r t).2 = none := by
  cases r <;> simp [TauriHlsLoader.resolvePlaylist, h]

theorem resolveSegment_aborted_silent (l : TauriHlsLoader)
    (r : Except String (List Nat)) (t : Nat) (h : l.stats.aborted = true) :
    (l.resolveSegment r t).2 = none := by
  cases r <;> simp [TauriHlsLoader.resolveSegment, h]

theorem resolvePlaylist_destroyed_silent (l : TauriHlsLoader)
    (r : Except String String) (t : Nat) (h : l.destroyed = true) :
    (l.resolvePlaylist r t).2 = none := by
  cases r <;> simp [TauriHlsLoader.resolvePlaylist, h]

theorem resolveSegment_destroyed_silent (l : TauriHlsLoader)
    (r : Except String (List Nat)) (t : Nat) (h : l.destroyed = true) :
    (l.resolveSegment r t).2 = none := by
  cases r <;> simp [TauriHlsLoader.resolveSegment, h]

/-! ## Chat hook (`useChat`) -/

/-- `ChatMessage` from `types.ts`, extended with the optional server-assigned
`id` tag read by the `useChat` listener. -/
structure ChatMessage where
  id : Option String
  user : String
  message : String
  color : Option String
  badges : List (String × String)
  timestamp : Nat
  channel : String
  deriving DecidableEq, Repr

/-- JS truthiness of the optional `id` field (`newMsg.id && …`): present and
non-empty. -/
def idTruthy : Option String → Bool
  | none => false
  | some s => s ≠ ""

/-- JS `list.slice(-n)`: the last `n` elements. -/
def takeLast (n : Nat) (l : List α) : List α :=
  l.drop (l.length - n)

/-- State owned by the `useChat` hook in its active (identity-based dedup)
version: the bounded message history, the currently selected channel ref, and
the insertion-ordered set of seen message ids. -/
structure ChatState where
  messages : List ChatMessage
  currentChannel : Option String
  seenIds : List String
  deriving DecidableEq, Repr

/-- Initial hook state. -/
def initChatState : ChatState where
  messages := []
  currentChannel := none
  seenIds := []

/-- The `chat-message` listener of `useChat.ts` (identity-based dedup
version), arriving at wall-clock time `now`: drop the event unless its
channel equals the current channel ref; drop it if its truthy id was already
seen; otherwise record the id (evicting the oldest once the set exceeds 500)
and append the message, re-stamped with `now`, trimming to the last 200. -/
def handleChatMessage (s : ChatState) (msg : ChatMessage) (now : Nat) : ChatState :=
  if s.currentChannel ≠ some msg.channel then s
  else if idTruthy msg.id && s.seenIds.contains (msg.id.getD "") then s
  else
    let seen1 :=
      if idTruthy msg.id then
        let added := s.seenIds ++ [msg.id.getD ""]
        if added.length > 500 then added.drop 1 else added
      else s.seenIds
    { s with
        seenIds := seen1
        messages := takeLast 200 (s.messages ++ [{ msg with timestamp := now }]) }

/-- The `chat-message` listener of the content/time dedup version of
`useChat` (the alternate revision): drop the event if the immediately
preceding delivered message has the same user and text and arrived within
100 ms; otherwise append, re-stamped with `now`, trimming to the last 200. -/
def handleChatMessageCT (current : Option String) (prev : List ChatMessage)
    (msg : ChatMessage) (now : Nat) : List ChatMessage :=
  if current ≠ some msg.channel then prev
  else
    match prev.getLast? with
    | some lastMsg =>
      if lastMsg.user == msg.user && lastMsg.message == msg.message
          && now - lastMsg.timestamp < 100 then prev
      else takeLast 200 (prev ++ [{ msg with timestamp := now }])
    | none => takeLast 200 (prev ++ [{ msg with timestamp := now }])

/-- Externally-triggered steps on the chat hook: the channel-selection effect
(rerunning on every change of the `channel` prop) and the arrival of a
`chat-message` event at a given wall-clock time. -/
inductive ChatAction where
  | setChannel (c : Option String)
  | deliver (msg : ChatMessage) (now : Nat)
  deriving Repr

/-- Step function of the chat trace semantics.  The channel effect clears the
history and the seen-id set in both the `null` and the connect branch, and
updates the current-channel ref. -/
def chatStep (s : ChatState) (a : ChatAction) : ChatState :=
  match a with
  | .setChannel c => { messages := [], currentChannel := c, seenIds := [] }
  | .deliver msg now => handleChatMessage s msg now

/-- Run a trace of chat actions from the initial hook state. -/
def runChat (acts : List ChatAction) : ChatState :=
  acts.foldl chatStep initChatState

theorem takeLast_length_le (n : Nat) (l : List α) : (takeLast n l).length ≤ n := by
  simp only [takeLast, List.length_drop]
  omega

/-- Channel filtering: a message whose channel differs from the current
channel ref leaves the hook state untouched. -/
theorem handleChatMessage_filtered (s : ChatState) (msg : ChatMessage) (now : Nat)
    (h : s.currentChannel ≠ some msg.channel) :
    handleChatMessage s msg now = s := by
  simp [handleChatMessage, h]

set_option maxRecDepth 4000 in
/-- Case analysis on one `chat-message` delivery: the current-channel ref is
untouched, and the history is either unchanged (filtered or deduplicated) or
is the appended-and-trimmed list, the latter only when the channel matched. -/
theorem handleChatMessage_cases (s : ChatState) (msg : ChatMessage) (now : Nat) :
    (handleChatMessage s msg now).currentChannel = s.currentChannel ∧
    ((handleChatMessage s msg now).messages = s.messages ∨
      (s.currentChannel = some msg.channel ∧
        (handleChatMessage s msg now).messages =
          takeLast 200 (s.messages ++ [{ msg with timestamp := now }]))) := by
  unfold handleChatMessage
  split
  · exact ⟨rfl, Or.inl rfl⟩
  next hc =>
    split
    · exact ⟨rfl, Or.inl rfl⟩
    · exact ⟨rfl, Or.inr ⟨not_ne_iff.mp hc, rfl⟩⟩

/-- Every message in the history carries the currently selected channel:
invariant of a single step. -/
theorem chatStep_channel_invariant (s : ChatState) (a : ChatAction)
    (h : ∀ m ∈ s.messages, s.currentChannel = some m.channel) :
    ∀ m ∈ (chatStep s a).messages, (chatStep s a).currentChannel = some m.channel := by
  cases a with
  | setChannel c => simp [chatStep]
  | deliver msg now =>
    intro m hm
    obtain ⟨hcur, hmsgs⟩ := handleChatMessage_cases s msg now
    simp only [chatStep] at hm ⊢
    rw [hcur]
    rcases hmsgs with heq | ⟨hc, heq⟩
    · rw [heq] at hm
      exact h m hm
    · rw [heq] at hm
      unfold takeLast at hm
      have hm' := List.mem_of_mem_drop hm
      rcases List.mem_append.mp hm' with h1 | h2
      · exact h m h1
      · simp only [List.mem_singleton] at h2
        subst h2
        exact hc

/-! ## Reconnect after `chat-disconnected` (`useChat`) -/

/-- A `chat-disconnected` episode.  The listener, registered by the effect
with dependency `[channel]`, closes over the `channel` value of the render
at registration time.  When the channel prop changes, the effect cleanup
unsubscribes the listener for future events, but an in-flight handler
invocation (suspended in its two-second `setTimeout` await) resumes with the
captured binding; the user's selection at resume time is therefore not an
input of the handler body. -/
structure ReconnectScenario where
  channelAtRegistration : Option String
  disconnected : String
  channelAtResume : Option String
  deriving DecidableEq, Repr

/-- The body of the `chat-disconnected` handler: guard
`disconnectedChannel === channel`, await the fixed 2 s delay, re-check
`disconnectedChannel === channel`, then `invoke("connect_to_chat",
{ channel })`.  Both checks read the same two immutable closure bindings.
Returns the channel passed to `connect_to_chat`, or `none` when no connect
call is issued. -/
def reconnectHandlerBody (channel : Option String) (disconnectedChannel : String) :
    Option String :=
  if channel = some disconnectedChannel then
    if channel = some disconnectedChannel then some disconnectedChannel else none
  else none

/-- The connect call issued when an episode plays out: the handler body
applied to the closure bindings; `channelAtResume` cannot influence it. -/
def scenarioConnectCall (sc : ReconnectScenario) : Option String :=
  reconnectHandlerBody sc.channelAtRegistration sc.disconnected

/-! ## Emote & badge resolution (`useEmotes`) -/

/-- Emote from 7TV/BTTV/FFZ (`types.ts`). -/
structure Emote where
  name : String
  url : String
  deriving DecidableEq, Repr

/-- Badge from the Twitch GQL API (`types.ts`). -/
structure TwitchBadge where
  setID : String
  version : String
  imageURL : String
  deriving DecidableEq, Repr

/-- The `images` member of a Helix emote. -/
structure TwitchEmoteImages where
  url1x : String
  url2x : String
  deriving DecidableEq, Repr

/-- Twitch emote from the Helix API; `images` is read with optional
chaining (`e.images?.…`), hence `Option`. -/
structure TwitchEmote where
  name : String
  images : Option TwitchEmoteImages
  deriving DecidableEq, Repr

/-- A JS `Map<string, string>`: an insertion-ordered association list whose
keys are unique by construction. -/
abbrev EmoteMap := List (String × String)

/-- JS `Map.prototype.set`: replace the entry in place if the key exists,
else append. -/
def mapSet : EmoteMap → String → String → EmoteMap
  | [], k, v => [(k, v)]
  | p :: rest, k, v => if p.1 == k then (k, v) :: rest else p :: mapSet rest k v

/-- JS `Map.prototype.get`. -/
def mapGet (m : EmoteMap) (k : String) : Option String :=
  (m.find? fun p => p.1 == k).map Prod.snd

/-- `entries.forEach((v, k) => m.set(k, v))`: fold `mapSet` over the entries
of `entries` in insertion order. -/
def mapSetAll (m entries : EmoteMap) : EmoteMap :=
  entries.foldl (fun acc p => mapSet acc p.1 p.2) m

/-- The key-uniqueness invariant every constructed JS map enjoys. -/
def nodupKeys (m : EmoteMap) : Prop :=
  (m.map Prod.fst).Nodup

instance (m : EmoteMap) : Decidable (nodupKeys m) := by
  unfold nodupKeys
  infer_instance

/-- `e.images?.url_2x || e.images?.url_1x` with JS falsiness of the empty
string. -/
def twitchEmoteUrl (e : TwitchEmote) : Option String :=
  match e.images with
  | none => none
  | some im =>
    if im.url2x ≠ "" then some im.url2x
    else if im.url1x ≠ "" then some im.url1x
    else none

/-- Build the 7TV/BTTV/FFZ map: `emoteList.forEach(e => map.set(e.name, e.url))`. -/
def buildEmoteMap (es : List Emote) : EmoteMap :=
  es.foldl (fun m e => mapSet m e.name e.url) []

/-- Build a Helix emote map, keeping entries with a truthy name and url:
`if (e.name && url) map.set(e.name, url)`. -/
def buildTwitchEmoteMap (es : List TwitchEmote) : EmoteMap :=
  es.foldl
    (fun m e =>
      match twitchEmoteUrl e with
      | some url => if e.name ≠ "" then mapSet m e.name url else m
      | none => m)
    []

/-- The `allEmotes` memo of `useEmotes`: start from a copy of the Twitch
global map, then overlay the third-party global, Twitch channel, and
third-party channel maps in that order (later wins on key collision). -/
def allEmotes (twitchGlobalEmotes globalEmotes twitchChannelEmotes channelEmotes :
    EmoteMap) : EmoteMap :=
  mapSetAll (mapSetAll (mapSetAll twitchGlobalEmotes globalEmotes) twitchChannelEmotes)
    channelEmotes

/-- The channel-scoped tables owned by `useEmotes`. -/
structure ChannelEmotesState where
  channelEmotes : EmoteMap
  twitchChannelEmotes : EmoteMap
  channelBadges : List TwitchBadge
  deriving DecidableEq, Repr

/-- `loadChannelEmotes`: the three bridge calls are issued through a single
`Promise.all` inside one `try`; only when all three resolve are any tables
published (the Twitch channel table additionally only when the response
carries `data`); a single rejection hits the shared `catch`, which logs and
publishes nothing. -/
def loadChannelEmotes (s : ChannelEmotesState)
    (emoteListR : Except String (List Emote))
    (badgesR : Except String (List TwitchBadge))
    (twitchEmotesR : Except String (Option (List TwitchEmote))) :
    ChannelEmotesState :=
  match emoteListR, badgesR, twitchEmotesR with
  | .ok emoteList, .ok badges, .ok twitchEmotes =>
    let s1 := { s with channelEmotes := buildEmoteMap emoteList, channelBadges := badges }
    match twitchEmotes with
    | some data => { s1 with twitchChannelEmotes := buildTwitchEmoteMap data }
    | none => s1
  | _, _, _ => s

/-- First-hit-wins disjunction on optional lookups, used to phrase the
precedence of the merged table. -/
def optOr (a b : Option String) : Option String :=
  match a with
  | some v => some v
  | none => b

theorem mapGet_nil (k : String) : mapGet [] k = none := rfl

theorem mapGet_cons (p : String × String) (rest : EmoteMap) (k : String) :
    mapGet (p :: rest) k = if p.1 = k then some p.2 else mapGet rest k := by
  simp only [mapGet, List.find?]
  by_cases h : p.1 = k
  · rw [show (p.1 == k) = true by simpa using h]
    simp [h]
  · rw [show (p.1 == k) = false by simpa using h]
    simp [h]

theorem mapGet_mapSet (m : EmoteMap) (k v k' : String) :
    mapGet (mapSet m k v) k' = if k' = k then some v else mapGet m k' := by
  induction m with
  | nil =>
    rw [show mapSet [] k v = [(k, v)] from rfl, mapGet_cons]
    by_cases h : k' = k
    · simp [h]
    · have h2 : ¬ k = k' := fun hh => h hh.symm
      simp [h, h2, mapGet_nil]
  | cons p rest ih =>
    by_cases hp : p.1 = k
    · rw [show mapSet (p :: rest) k v = (k, v) :: rest by simp [mapSet, hp],
        mapGet_cons, mapGet_cons]
      by_cases h : k' = k
      · simp [h]
      · have h2 : ¬ k = k' := fun hh => h hh.symm
        have h3 : ¬ p.1 = k' := by rw [hp]; exact h2
        simp [h, h2, h3]
    · rw [show mapSet (p :: rest) k v = p :: mapSet rest k v by simp [mapSet, hp],
        mapGet_cons, mapGet_cons]
      by_cases hpk : p.1 = k'
      · have hk : ¬ k' = k := fun hh => hp (by rw [hpk, hh])
        simp [hpk, hk]
      · simp [hpk, ih]

theorem mapGet_eq_none_of_not_mem (m : EmoteMap) (k : String)
    (h : k ∉ m.map Prod.fst) : mapGet m k = none := by
  induction m with
  | nil => rfl
  | cons p rest ih =>
    simp only [List.map_cons, List.mem_cons, not_or] at h
    have hp : ¬ p.1 = k := fun hh => h.1 hh.symm
    rw [mapGet_cons, if_neg hp]
    exact ih h.2

theorem mapGet_mapSetAll (m e : EmoteMap) (k : String) (he : nodupKeys e) :
    mapGet (mapSetAll m e) k = optOr (mapGet e k) (mapGet m k) := by
  induction e generalizing m with
  | nil => simp [mapSetAll, mapGet_nil, optOr]
  | cons p rest ih =>
    have hrest : nodupKeys rest := by
      simpa [nodupKeys] using (List.nodup_cons.mp he).2
    have hnotmem : p.1 ∉ rest.map Prod.fst := (List.nodup_cons.mp he).1
    have step : mapSetAll m (p :: rest) = mapSetAll (mapSet m p.1 p.2) rest := rfl
    rw [step, ih _ hrest, mapGet_mapSet, mapGet_cons]
    by_cases hk : k = p.1
    · rw [if_pos hk, if_pos hk.symm,
        mapGet_eq_none_of_not_mem rest k (by rw [hk]; exact hnotmem)]
      simp [optOr]
    · have hk' : ¬ p.1 = k := fun hh => hk hh.symm
      rw [if_neg hk, if_neg hk']

/-! ## Trace-composition helpers -/

theorem runLoaderFrom_append (l : TauriHlsLoader) (pre post : List LoaderAction) :
    runLoaderFrom l (pre ++ post) = runLoaderFrom (runLoaderFrom l pre) post := by
  simp [runLoaderFrom, List.foldl_append]

theorem runLoaderFrom_cons (l : TauriHlsLoader) (a : LoaderAction)
    (rest : List LoaderAction) :
    runLoaderFrom l (a :: rest) = runLoaderFrom (loaderStep l a).1 rest := rfl

/-- Any trace with an `abort` in it leaves the aborted flag set for good. -/
theorem runLoader_aborted_of_mid (pre mid : List LoaderAction) :
    (runLoader (pre ++ LoaderAction.abort :: mid)).stats.aborted = true := by
  rw [runLoader, runLoaderFrom_append, runLoaderFrom_cons]
  apply runLoaderFrom_aborted_mono
  simp [loaderStep, TauriHlsLoader.abort]

/-- Any trace with a `destroy` in it leaves the destroyed flag set for good. -/
theorem runLoader_destroyed_of_mid (pre mid : List LoaderAction) :
    (runLoader (pre ++ LoaderAction.destroy :: mid)).destroyed = true := by
  rw [runLoader, runLoaderFrom_append, runLoaderFrom_cons]
  apply runLoaderFrom_destroyed_mono
  simp [loaderStep, TauriHlsLoader.destroy]

/-- Run a trace of chat actions from a given hook state. -/
def runChatFrom (s : ChatState) (acts : List ChatAction) : ChatState :=
  acts.foldl chatStep s

theorem runChatFrom_channel_invariant (s : ChatState) (acts : List ChatAction)
    (h : ∀ m ∈ s.messages, s.currentChannel = some m.channel) :
    ∀ m ∈ (runChatFrom s acts).messages,
      (runChatFrom s acts).currentChannel = some m.channel := by
  induction acts generalizing s with
  | nil => exact h
  | cons a rest ih => exact ih (chatStep s a) (chatStep_channel_invariant s a h)

theorem runChatFrom_length_le (s : ChatState) (acts : List ChatAction)
    (h : s.messages.length ≤ 200) :
    (runChatFrom s acts).messages.length ≤ 200 := by
  induction acts generalizing s with
  | nil => exact h
  | cons a rest ih =>
    apply ih
    cases a with
    | setChannel c => simp [chatStep]
    | deliver msg now =>
      rcases (handleChatMessage_cases s msg now).2 with heq | ⟨-, heq⟩
      · simpa [chatStep, heq] using h
      · simpa [chatStep, heq] using takeLast_length_le 200 _

theorem runChat_eq_runChatFrom (acts : List ChatAction) :
    runChat acts = runChatFrom initChatState acts := rfl

/-! ## Claims -/

/-- C1: for every load issued through the Network Bridge Loader, if `abort()`
(or `destroy()`) is called before the underlying bridge call resolves, then
neither the `onSuccess` nor the `onError` callback is ever invoked for that
load; whenever either flag-setting call precedes the bridge-call resumption
in the trace — with arbitrary activity in between — the resumption emits no
callback, for playlist and segment loads alike. -/
theorem claim_C1_abort_silences_callbacks (pre mid : List LoaderAction)
    (rp : Except String String) (rs : Except String (List Nat)) (t : Nat) :
    (loaderStep (runLoader (pre ++ LoaderAction.abort :: mid))
        (.resolvePlaylist rp t)).2 = none ∧
    (loaderStep (runLoader (pre ++ LoaderAction.abort :: mid))
        (.resolveSegment rs t)).2 = none ∧
    (loaderStep (runLoader (pre ++ LoaderAction.destroy :: mid))
        (.resolvePlaylist rp t)).2 = none ∧
    (loaderStep (runLoader (pre ++ LoaderAction.destroy :: mid))
        (.resolveSegment rs t)).2 = none := by
  refine ⟨?_, ?_, ?_, ?_⟩
  · exact resolvePlaylist_aborted_silent _ rp t (runLoader_aborted_of_mid pre mid)
  · exact resolveSegment_aborted_silent _ rs t (runLoader_aborted_of_mid pre mid)
  · exact resolvePlaylist_destroyed_silent _ rp t (runLoader_destroyed_of_mid pre mid)
  · exact resolveSegment_destroyed_silent _ rs t (runLoader_destroyed_of_mid pre mid)

/-- C2: an incoming chat event is delivered only if its channel equals the
currently-selected channel at the moment of arrival, and consequently, after
any sequence of channel switches and deliveries, every message in the
history is tagged with the currently selected channel — so after a switch
from channel A to channel B no event tagged A sits in or enters the
history. -/
theorem claim_C2_channel_filter (acts : List ChatAction) (m : ChatMessage)
    (hm : m ∈ (runChat acts).messages) :
    (runChat acts).currentChannel = some m.channel ∧
    ∀ (s : ChatState) (msg : ChatMessage) (now : Nat),
      s.currentChannel ≠ some msg.channel → handleChatMessage s msg now = s := by
  constructor
  · rw [runChat_eq_runChatFrom] at hm ⊢
    exact runChatFrom_channel_invariant initChatState acts (by simp [initChatState]) m hm
  · exact handleChatMessage_filtered

/-- Witness for C2 at a concrete trace: after switching to channel "b" and
delivering one message tagged "b", that message is in the history and the
current channel equals its tag. -/
theorem claim_C2_channel_filter_witness :
    (⟨some "id1", "u", "hi", none, [], 7, "b"⟩ : ChatMessage) ∈
      (runChat [ChatAction.setChannel (some "b"),
        ChatAction.deliver ⟨some "id1", "u", "hi", none, [], 0, "b"⟩ 7]).messages ∧
    (runChat [ChatAction.setChannel (some "b"),
        ChatAction.deliver ⟨some "id1", "u", "hi", none, [], 0, "b"⟩ 7]).currentChannel =
      some (⟨some "id1", "u", "hi", none, [], 7, "b"⟩ : ChatMessage).channel :=
  ⟨by decide, (claim_C2_channel_filter _ _ (by decide)).1⟩

/-- C3: the merged emote lookup reflects, for every key, the
highest-precedence table defining it, with precedence (lowest to highest)
Twitch-global, third-party-global, Twitch-channel (subscriber), third-party
channel; the merge is recomputed as a pure function of the four tables. -/
theorem claim_C3_merge_precedence (tg g tc c : EmoteMap) (k : String)
    (hg : nodupKeys g) (htc : nodupKeys tc) (hc : nodupKeys c) :
    mapGet (allEmotes tg g tc c) k =
      optOr (mapGet c k) (optOr (mapGet tc k) (optOr (mapGet g k) (mapGet tg k))) := by
  unfold allEmotes
  rw [mapGet_mapSetAll _ _ _ hc, mapGet_mapSetAll _ _ _ htc, mapGet_mapSetAll _ _ _ hg]

/-- Witness for C3 at concrete tables: the channel-scoped third-party table
wins over every other table defining the same key. -/
theorem claim_C3_merge_precedence_witness :
    nodupKeys [("kappa", "gurl")] ∧ nodupKeys [("kappa", "suburl")] ∧
    nodupKeys [("kappa", "curl")] ∧
    mapGet (allEmotes [("kappa", "twurl")] [("kappa", "gurl")]
        [("kappa", "suburl")] [("kappa", "curl")]) "kappa" =
      optOr (mapGet [("kappa", "curl")] "kappa")
        (optOr (mapGet [("kappa", "suburl")] "kappa")
          (optOr (mapGet [("kappa", "gurl")] "kappa")
            (mapGet [("kappa", "twurl")] "kappa"))) :=
  ⟨by decide, by decide, by decide,
    claim_C3_merge_precedence _ _ _ _ _ (by decide) (by decide) (by decide)⟩

/-- C4: the claim says a scheduled reconnect re-validates, after the 2 s
delay, that the disconnected channel is still the user's current selection,
and performs no connect call otherwise.  The code's post-delay re-check
compares the same two closure-captured values as the pre-delay guard, so the
selection at resume time cannot affect it: in the episode where "alpha"
disconnects while selected and the user switches to "beta" during the delay,
the handler still issues `connect_to_chat("alpha")`. -/
theorem claim_C4_reconnect_stale_closure :
    scenarioConnectCall ⟨some "alpha", "alpha", some "beta"⟩ = some "alpha" ∧
    (⟨some "alpha", "alpha", some "beta"⟩ : ReconnectScenario).channelAtResume ≠
      some (⟨some "alpha", "alpha", some "beta"⟩ : ReconnectScenario).disconnected :=
  ⟨by decide, by decide⟩

/-- C5 counterexample: a URL that contains `.m3u8` without ending in it is
still routed to the text bridge call `fetch_m3u8`, refuting the claim that
the playlist route is taken exactly when the URL ends with `.m3u8`. -/
theorem claim_C5_counterexample :
    (TauriHlsLoader.init.load "http://h/live.m3u8?token=abc" ⟨true⟩ 0).2 =
      BridgeCall.fetchM3u8 "http://h/live.m3u8?token=abc" ∧
    specEndsWith "http://h/live.m3u8?token=abc" ".m3u8" = false :=
  ⟨by decide, by decide⟩

/-- C5 (amended): the loader routes a request to the text bridge call
`fetch_m3u8` exactly when the request's URL contains the substring `.m3u8`
(JS `String.prototype.includes`, not a suffix test), routes every other
request to `fetch_bytes`, and the classification is a pure, stateless
function of the URL string only. -/
theorem claim_C5_classification (l : TauriHlsLoader) (url : String)
    (cbs : LoaderCallbacks) (t : Nat) :
    ((l.load url cbs t).2 = BridgeCall.fetchM3u8 url ↔
      ∃ pre post, url.data = pre ++ (".m3u8" : String).data ++ post) ∧
    ((l.load url cbs t).2 = BridgeCall.fetchM3u8 url ∨
      (l.load url cbs t).2 = BridgeCall.fetchBytes url) ∧
    (∀ (l2 : TauriHlsLoader) (cbs2 : LoaderCallbacks) (t2 : Nat),
      (l.load url cbs t).2 = (l2.load url cbs2 t2).2) := by
  refine ⟨?_, ?_, fun l2 cbs2 t2 => rfl⟩
  · show (if strIncludes url ".m3u8" then BridgeCall.fetchM3u8 url
        else BridgeCall.fetchBytes url) = BridgeCall.fetchM3u8 url ↔ _
    by_cases h : strIncludes url ".m3u8" = true
    · rw [if_pos h]
      exact iff_of_true rfl ((strIncludes_iff url ".m3u8").mp h)
    · rw [if_neg h]
      constructor
      · intro hcontra
        exact absurd hcontra (by simp)
      · intro hex
        exact absurd ((strIncludes_iff url ".m3u8").mpr hex) h
  · show (if strIncludes url ".m3u8" then BridgeCall.fetchM3u8 url
        else BridgeCall.fetchBytes url) = BridgeCall.fetchM3u8 url ∨
      (if strIncludes url ".m3u8" then BridgeCall.fetchM3u8 url
        else BridgeCall.fetchBytes url) = BridgeCall.fetchBytes url
    by_cases h : strIncludes url ".m3u8" = true
    · rw [if_pos h]; exact Or.inl rfl
    · rw [if_neg h]; exact Or.inr rfl

/-- Witness for C5 at a concrete URL: a plain playlist URL is routed to
`fetch_m3u8` and its character list decomposes around `.m3u8`. -/
theorem claim_C5_classification_witness :
    (TauriHlsLoader.init.load "a.m3u8" ⟨true⟩ 0).2 = BridgeCall.fetchM3u8 "a.m3u8" :=
  (claim_C5_classification TauriHlsLoader.init "a.m3u8" ⟨true⟩ 0).1.mpr
    ⟨['a'], [], by decide⟩

/-- C6 counterexample: with the 7TV/BTTV/FFZ channel-emote call succeeding
and the badge call failing, `loadChannelEmotes` publishes nothing at all —
the successful provider's (non-empty) contribution never reaches its table,
refuting the claimed per-load failure isolation. -/
theorem claim_C6_counterexample :
    loadChannelEmotes ⟨[], [], []⟩ (.ok [⟨"pog", "https://x/pog"⟩])
      (.error "HTTP 500") (.ok (some [])) = ⟨[], [], []⟩ ∧
    buildEmoteMap [⟨"pog", "https://x/pog"⟩] ≠ [] :=
  ⟨rfl, by decide⟩

/-- C6 (amended): the three channel-scoped loads are issued concurrently but
share a single failure domain through `Promise.all` and one `catch`: if any
of the three bridge calls fails, none of the three results is published;
only when all three succeed are the third-party channel emotes and channel
badges published, and the Twitch subscriber table additionally only when the
response carries `data`. -/
theorem claim_C6_channel_loads (s : ChannelEmotesState)
    (e : Except String (List Emote)) (b : Except String (List TwitchBadge))
    (tw : Except String (Option (List TwitchEmote))) :
    (∀ err, e = .error err → loadChannelEmotes s e b tw = s) ∧
    (∀ err, b = .error err → loadChannelEmotes s e b tw = s) ∧
    (∀ err, tw = .error err → loadChannelEmotes s e b tw = s) ∧
    (∀ el bl twl, e = .ok el → b = .ok bl → tw = .ok twl →
      (loadChannelEmotes s e b tw).channelEmotes = buildEmoteMap el ∧
      (loadChannelEmotes s e b tw).channelBadges = bl ∧
      (loadChannelEmotes s e b tw).twitchChannelEmotes =
        (match twl with
          | some data => buildTwitchEmoteMap data
          | none => s.twitchChannelEmotes)) := by
  refine ⟨?_, ?_, ?_, ?_⟩
  · rintro err rfl
    cases b <;> cases tw <;> rfl
  · rintro err rfl
    cases e <;> cases tw <;> rfl
  · rintro err rfl
    cases e <;> cases b <;> rfl
  · rintro el bl twl rfl rfl rfl
    cases twl <;> exact ⟨rfl, rfl, rfl⟩

/-- Witness for C6 at concrete inputs: a failing badge call suppresses
publication; with all three succeeding, the third-party table is published. -/
theorem claim_C6_channel_loads_witness :
    ((.error "HTTP 500" : Except String (List TwitchBadge)) = .error "HTTP 500" →
        True) ∧
    loadChannelEmotes ⟨[("old", "u")], [], []⟩ (.ok [⟨"pog", "pu"⟩])
        (.error "HTTP 500") (.ok none) = ⟨[("old", "u")], [], []⟩ ∧
    (loadChannelEmotes ⟨[], [], []⟩ (.ok [⟨"pog", "pu"⟩]) (.ok [⟨"s", "1", "i"⟩])
        (.ok none)).channelEmotes = buildEmoteMap [⟨"pog", "pu"⟩] :=
  ⟨fun _ => trivial,
    (claim_C6_channel_loads ⟨[("old", "u")], [], []⟩ (.ok [⟨"pog", "pu"⟩])
      (.error "HTTP 500") (.ok none)).2.1 "HTTP 500" rfl,
    ((claim_C6_channel_loads ⟨[], [], []⟩ (.ok [⟨"pog", "pu"⟩]) (.ok [⟨"s", "1", "i"⟩])
      (.ok none)).2.2.2 [⟨"pog", "pu"⟩] [⟨"s", "1", "i"⟩] none rfl rfl rfl).1⟩

/-! ## Dedup lemmas for C7 -/

theorem contains_of_mem {x : String} {l : List String} (h : x ∈ l) :
    l.contains x = true := by
  induction l with
  | nil => cases h
  | cons a rest ih =>
    show List.elem x (a :: rest) = true
    rcases List.mem_cons.mp h with rfl | h2
    · simp only [List.elem, beq_self_eq_true]
    · cases hax : x == a
      · have hstep : List.elem x (a :: rest) = List.elem x rest := by
          simp only [List.elem, hax]
        rw [hstep]
        exact ih h2
      · simp only [List.elem, hax]

theorem mem_of_contains {x : String} {l : List String} (h : l.contains x = true) :
    x ∈ l := by
  induction l with
  | nil => exact absurd h (by simp [List.contains, List.elem])
  | cons a rest ih =>
    have h' : List.elem x (a :: rest) = true := h
    cases hax : x == a
    · have hrest : List.elem x rest = true := by
        have hstep : List.elem x (a :: rest) = List.elem x rest := by
          simp only [List.elem, hax]
        rw [hstep] at h'
        exact h'
      exact List.mem_cons_of_mem a (ih hrest)
    · exact List.mem_cons.mpr (Or.inl (beq_iff_eq.mp hax))

/-- An event whose truthy id is already among the seen identifiers leaves the
hook state untouched, whatever its channel. -/
theorem handleChatMessage_suppress_seen (s : ChatState) (msg : ChatMessage)
    (now : Nat) (hid : idTruthy msg.id = true)
    (hseen : (msg.id.getD "") ∈ s.seenIds) :
    handleChatMessage s msg now = s := by
  unfold handleChatMessage
  by_cases hc : s.currentChannel ≠ some msg.channel
  · rw [if_pos hc]
  · rw [if_neg hc, if_pos]
    rw [hid, contains_of_mem hseen]
    rfl

/-- After delivering an event with a truthy id to its matching channel, the
id is recorded among the seen identifiers. -/
theorem seenIds_mem_after (s : ChatState) (msg : ChatMessage) (now : Nat)
    (hc : s.currentChannel = some msg.channel) (hid : idTruthy msg.id = true) :
    (msg.id.getD "") ∈ (handleChatMessage s msg now).seenIds := by
  unfold handleChatMessage
  rw [if_neg (by simp [hc])]
  by_cases hseen : (idTruthy msg.id && s.seenIds.contains (msg.id.getD "")) = true
  · rw [if_pos hseen]
    exact mem_of_contains ((Bool.and_eq_true _ _).mp hseen).2
  · rw [if_neg hseen]
    show (msg.id.getD "") ∈
      (if idTruthy msg.id then
        if (s.seenIds ++ [msg.id.getD ""]).length > 500 then
          (s.seenIds ++ [msg.id.getD ""]).drop 1
        else s.seenIds ++ [msg.id.getD ""]
      else s.seenIds)
    rw [if_pos hid]
    by_cases hlen : (s.seenIds ++ [msg.id.getD ""]).length > 500
    · rw [if_pos hlen]
      have hx : 1 ≤ s.seenIds.length := by
        rcases Nat.eq_zero_or_pos s.seenIds.length with h0 | h1
        · exfalso
          rw [List.length_append, h0] at hlen
          simp at hlen
        · exact h1
      rw [List.drop_append_of_le_length hx]
      exact List.mem_append_right _ (List.mem_singleton.mpr rfl)
    · rw [if_neg hlen]
      exact List.mem_append_right _ (List.mem_singleton.mpr rfl)

/-- The content/time dedup variant suppresses an event matching the
immediately preceding delivered one in user and text within 100 ms. -/
theorem handleChatMessageCT_suppress (current : Option String)
    (prev : List ChatMessage) (msg lastMsg : ChatMessage) (now : Nat)
    (hl : prev.getLast? = some lastMsg)
    (hu : lastMsg.user = msg.user) (hm : lastMsg.message = msg.message)
    (ht : now - lastMsg.timestamp < 100) :
    handleChatMessageCT current prev msg now = prev := by
  unfold handleChatMessageCT
  by_cases hc : current ≠ some msg.channel
  · rw [if_pos hc]
  · rw [if_neg hc, hl]
    simp [hu, hm, ht]

/-- C7 counterexample: under the active identity-based policy, two
structurally identical events (same user, same text) with distinct
server-assigned ids, delivered 10 ms apart to the selected channel, are BOTH
retained in history — the claim that exactly one of a structurally-identical
pair within the suppression window is retained fails. -/
theorem claim_C7_counterexample :
    (runChat [ChatAction.setChannel (some "c"),
      ChatAction.deliver ⟨some "id1", "u", "hi", none, [], 0, "c"⟩ 10,
      ChatAction.deliver ⟨some "id2", "u", "hi", none, [], 0, "c"⟩ 20]).messages.length
        = 2 ∧
    (⟨some "id1", "u", "hi", none, [], 0, "c"⟩ : ChatMessage).user =
      (⟨some "id2", "u", "hi", none, [], 0, "c"⟩ : ChatMessage).user ∧
    (⟨some "id1", "u", "hi", none, [], 0, "c"⟩ : ChatMessage).message =
      (⟨some "id2", "u", "hi", none, [], 0, "c"⟩ : ChatMessage).message ∧
    (20 : Nat) - 10 < 100 := by
  refine ⟨?_, rfl, rfl, by decide⟩
  decide

/-- C7 (amended): the active policy in `useChat.ts` is identity-based—an
event whose truthy server-assigned id is among the seen identifiers (the
last at most 500, FIFO-evicted) is suppressed, so two events sharing one id
yield exactly one retained entry, while structural identity alone does not
suppress; the content/time variant of the alternate revision suppresses an
event equal in user and text to the immediately preceding delivered event
within 100 ms. -/
theorem claim_C7_dedup_policies (s : ChatState) (msg msg2 : ChatMessage)
    (t1 t2 now : Nat) (current : Option String) (prev : List ChatMessage)
    (lastMsg : ChatMessage) :
    (idTruthy msg.id = true → (msg.id.getD "") ∈ s.seenIds →
      handleChatMessage s msg now = s) ∧
    (s.currentChannel = some msg.channel → idTruthy msg.id = true →
      msg2.id = msg.id →
      handleChatMessage (handleChatMessage s msg t1) msg2 t2 =
        handleChatMessage s msg t1) ∧
    (prev.getLast? = some lastMsg → lastMsg.user = msg.user →
      lastMsg.message = msg.message → now - lastMsg.timestamp < 100 →
      handleChatMessageCT current prev msg now = prev) := by
  refine ⟨fun hid hseen => handleChatMessage_suppress_seen s msg now hid hseen,
    fun hc hid hid2 => ?_,
    fun hl hu hm ht => handleChatMessageCT_suppress current prev msg lastMsg now hl hu hm ht⟩
  apply handleChatMessage_suppress_seen
  · rw [hid2]; exact hid
  · rw [hid2]; exact seenIds_mem_after s msg t1 hc hid

/-- Witness for C7 at concrete inputs: a repeated id is suppressed; a
repeated (user, text) within 100 ms is suppressed by the content/time
variant. -/
theorem claim_C7_dedup_policies_witness :
    handleChatMessage ⟨[], some "c", ["x"]⟩
      ⟨some "x", "u", "hi", none, [], 0, "c"⟩ 5 = ⟨[], some "c", ["x"]⟩ ∧
    handleChatMessageCT (some "c")
      [⟨some "a", "u", "hi", none, [], 40, "c"⟩]
      ⟨some "b", "u", "hi", none, [], 0, "c"⟩ 90 =
      [⟨some "a", "u", "hi", none, [], 40, "c"⟩] :=
  ⟨(claim_C7_dedup_policies ⟨[], some "c", ["x"]⟩
      ⟨some "x", "u", "hi", none, [], 0, "c"⟩
      ⟨some "x", "u", "hi", none, [], 0, "c"⟩ 0 0 5 none []
      ⟨some "x", "u", "hi", none, [], 0, "c"⟩).1 (by decide) (by decide),
    (claim_C7_dedup_policies ⟨[], some "c", ["x"]⟩
      ⟨some "b", "u", "hi", none, [], 0, "c"⟩
      ⟨some "x", "u", "hi", none, [], 0, "c"⟩ 0 0 90 (some "c")
      [⟨some "a", "u", "hi", none, [], 40, "c"⟩]
      ⟨some "a", "u", "hi", none, [], 40, "c"⟩).2.2 rfl rfl rfl (by decide)⟩

/-- C8: after any sequence of deliveries and channel switches, the chat
history never holds more than 200 events, and a delivery either leaves the
history unchanged (filtered or deduplicated) or appends the event and trims
to the most recent 200 — dropping the oldest silently. -/
theorem claim_C8_history_bound (acts : List ChatAction) :
    (runChat acts).messages.length ≤ 200 ∧
    ∀ (s : ChatState) (msg : ChatMessage) (now : Nat),
      (handleChatMessage s msg now).messages = s.messages ∨
      (handleChatMessage s msg now).messages =
        takeLast 200 (s.messages ++ [{ msg with timestamp := now }]) := by
  refine ⟨?_, fun s msg now => ?_⟩
  · rw [runChat_eq_runChatFrom]
    exact runChatFrom_length_le initChatState acts (by simp [initChatState])
  · rcases (handleChatMessage_cases s msg now).2 with h | ⟨-, h⟩
    · exact Or.inl h
    · exact Or.inr h

/-- C9: on the success path of a playlist load issued at `t0` and resolving
at `t1 ≥ t0` on a live (not destroyed, not aborted) instance, the loader
fires `onSuccess` with the response `{url, data}` (the decoded text) and the
updated stats, in which `loading.end ≥ loading.start`,
`loaded = total = data.length`, `loading.first` is set to the resolve time
only if it was not already set, and `loading.end` is always updated. -/
theorem claim_C9_playlist_success (l : TauriHlsLoader) (url data : String)
    (cbs : LoaderCallbacks) (t0 t1 : Nat)
    (hd : l.destroyed = false) (ha : l.stats.aborted = false) (ht : t0 ≤ t1) :
    ((l.load url cbs t0).1.resolvePlaylist (.ok data) t1).2 =
      some (LoaderEvent.onSuccess url (.text data)
        ((l.load url cbs t0).1.resolvePlaylist (.ok data) t1).1.stats) ∧
    ((l.load url cbs t0).1.resolvePlaylist (.ok data) t1).1.stats.loaded =
      data.length ∧
    ((l.load url cbs t0).1.resolvePlaylist (.ok data) t1).1.stats.total =
      data.length ∧
    ((l.load url cbs t0).1.resolvePlaylist (.ok data) t1).1.stats.loading.start = t0 ∧
    ((l.load url cbs t0).1.resolvePlaylist (.ok data) t1).1.stats.loading.end_ = t1 ∧
    ((l.load url cbs t0).1.resolvePlaylist (.ok data) t1).1.stats.loading.start ≤
      ((l.load url cbs t0).1.resolvePlaylist (.ok data) t1).1.stats.loading.end_ ∧
    (l.stats.loading.first = 0 →
      ((l.load url cbs t0).1.resolvePlaylist (.ok data) t1).1.stats.loading.first = t1) ∧
    (l.stats.loading.first ≠ 0 →
      ((l.load url cbs t0).1.resolvePlaylist (.ok data) t1).1.stats.loading.first =
        l.stats.loading.first) := by
  have hcond : (l.destroyed || l.stats.aborted) = false := by
    rw [hd, ha]
    rfl
  simp only [TauriHlsLoader.load, TauriHlsLoader.resolvePlaylist, hcond,
    Bool.false_eq_true, if_false]
  refine ⟨rfl, trivial, trivial, trivial, trivial, ht, fun h0 => ?_, fun h1 => ?_⟩
  · simp [h0]
  · simp [h1]

/-- Witness for C9 on a fresh loader: loading a concrete playlist URL at
time 3 and resolving at time 7 reports `loaded` equal to the payload
length. -/
theorem claim_C9_playlist_success_witness :
    TauriHlsLoader.init.destroyed = false ∧
    TauriHlsLoader.init.stats.aborted = false ∧ (3 : Nat) ≤ 7 ∧
    ((TauriHlsLoader.init.load "a.m3u8" ⟨false⟩ 3).1.resolvePlaylist
      (.ok "#EXTM3U") 7).1.stats.loaded = ("#EXTM3U" : String).length :=
  ⟨rfl, rfl, by decide,
    (claim_C9_playlist_success TauriHlsLoader.init "a.m3u8" "#EXTM3U" ⟨false⟩ 3 7
      rfl rfl (by decide)).2.1⟩

/-- C10: the stats object is created once per instance and `load()` never
resets it: after an `abort` anywhere in the trace the aborted flag is still
set, stays set across a further `load()`, and the resolution of any
subsequent load emits neither `onSuccess` nor `onError`; likewise the
destroyed flag set by `destroy` persists and keeps silencing resolutions. -/
theorem claim_C10_sticky_flags (pre mid : List LoaderAction) (url : String)
    (cbs : LoaderCallbacks) (tl t : Nat) (rp : Except String String)
    (rs : Except String (List Nat)) :
    (runLoader (pre ++ LoaderAction.abort :: mid)).stats.aborted = true ∧
    ((runLoader (pre ++ LoaderAction.abort :: mid)).load url cbs tl).1.stats.aborted
      = true ∧
    (((runLoader (pre ++ LoaderAction.abort :: mid)).load url cbs tl).1.resolvePlaylist
      rp t).2 = none ∧
    (((runLoader (pre ++ LoaderAction.abort :: mid)).load url cbs tl).1.resolveSegment
      rs t).2 = none ∧
    (runLoader (pre ++ LoaderAction.destroy :: mid)).destroyed = true ∧
    ((runLoader (pre ++ LoaderAction.destroy :: mid)).load url cbs tl).1.destroyed
      = true ∧
    (((runLoader (pre ++ LoaderAction.destroy :: mid)).load url cbs tl).1.resolvePlaylist
      rp t).2 = none := by
  have ha := runLoader_aborted_of_mid pre mid
  have hd := runLoader_destroyed_of_mid pre mid
  have ha2 : ((runLoader (pre ++ LoaderAction.abort :: mid)).load url cbs tl).1.stats.aborted
      = true := by
    simpa [TauriHlsLoader.load] using ha
  have hd2 : ((runLoader (pre ++ LoaderAction.destroy :: mid)).load url cbs tl).1.destroyed
      = true := by
    simpa [TauriHlsLoader.load] using hd
  exact ⟨ha, ha2, resolvePlaylist_aborted_silent _ rp t ha2,
    resolveSegment_aborted_silent _ rs t ha2, hd, hd2,
    resolvePlaylist_destroyed_silent _ rp t hd2⟩

end Secousse
